import Mathlib

/-!
Shallow embedding of the `Coin` core of the silent-pay wallet
(`Coin` class: JSON codec, `toInput` input builder, fee estimator).

Modelling conventions:
* JS byte buffers are `List ℕ` (each entry a byte value).
* The JSON text layer (`JSON.parse` / `JSON.stringify`, external runtime
  builtins) is modelled at the JSON *value* level: `Json` is the parse
  tree, and the outcome of `JSON.parse` on a text is an `Option Json`
  (`none` = malformed text, i.e. the builtin throws a syntax error).
* The external libraries `tiny-secp256k1` (`xOnlyPointAddTweak`) and
  `bitcoinjs-lib` (`toOutputScript`) are parameters of `Coin.toInput`,
  with result types reflecting their documented behaviour:
  `xOnlyPointAddTweak` either throws (invalid point / invalid tweak
  scalar), returns null (point at infinity), or returns a tweaked
  x-only key; `toOutputScript` either throws or returns a script.
* JS numbers in valid coin records are integers, modelled as `ℤ`;
  fee rates are modelled as `ℚ` (exact arithmetic, no rounding).
-/

/-- JSON value, the parse tree produced by the runtime's JSON parser. -/
inductive Json where
  | null : Json
  | bool : Bool → Json
  | num : ℤ → Json
  | str : String → Json
  | arr : List Json → Json
  | obj : List (String × Json) → Json

/-- Property lookup on a JSON object's key/value list (first match). -/
def jlookup (k : String) : List (String × Json) → Option Json
  | [] => none
  | (k', v) :: rest => if k' = k then some v else jlookup k rest

/-- Confirmation state of a coin (`CoinStatus` in the source). -/
structure CoinStatus where
  isConfirmed : Bool
  blockHeight : Option ℤ
  blockHash : Option String
  blockTime : Option ℤ
deriving DecidableEq

/-- A coin record with all declared fields present (the source's `Coin`
class field declarations; `tweak` is the only optional field). -/
structure Coin where
  txid : String
  vout : ℤ
  value : ℤ
  address : String
  status : CoinStatus
  tweak : Option String
deriving DecidableEq

/-- `JSON.stringify` of a status object: `undefined` optional fields are
omitted from the serialized object. -/
def CoinStatus.toJSON (s : CoinStatus) : Json :=
  Json.obj ([("isConfirmed", Json.bool s.isConfirmed)] ++
    (match s.blockHeight with
      | some n => [("blockHeight", Json.num n)]
      | none => []) ++
    (match s.blockHash with
      | some h => [("blockHash", Json.str h)]
      | none => []) ++
    (match s.blockTime with
      | some t => [("blockTime", Json.num t)]
      | none => []))

/-- `Coin.toJSON`: `JSON.stringify` of the object literal
`{txid, vout, value, address, status, tweak}`; a `tweak` of
`undefined` is omitted by `JSON.stringify`. -/
def Coin.toJSON (c : Coin) : Json :=
  Json.obj ([("txid", Json.str c.txid),
             ("vout", Json.num c.vout),
             ("value", Json.num c.value),
             ("address", Json.str c.address),
             ("status", c.status.toJSON)] ++
    (match c.tweak with
      | some t => [("tweak", Json.str t)]
      | none => []))

/-- The runtime shape produced by `new Coin(partial)`, i.e.
`Object.assign(this, partial)`: each declared field is either absent
(`none`) or holds whatever JSON value the parsed object carried —
no type or presence validation happens. -/
structure RawCoin where
  txid : Option Json
  vout : Option Json
  value : Option Json
  address : Option Json
  status : Option Json
  tweak : Option Json

/-- `new Coin(JSON.parse(json))` on an already-parsed value:
`Object.assign` copies the object's own properties onto the record;
a non-object parse result contributes none of the declared fields. -/
def Coin.fromJSONValue : Json → RawCoin
  | Json.obj kvs =>
    ⟨jlookup "txid" kvs, jlookup "vout" kvs, jlookup "value" kvs,
     jlookup "address" kvs, jlookup "status" kvs, jlookup "tweak" kvs⟩
  | _ => ⟨none, none, none, none, none, none⟩

/-- The only failure of `Coin.fromJSON`: `JSON.parse` throws on
malformed text. -/
inductive ParseError where
  | syntaxError : ParseError
deriving DecidableEq

/-- `Coin.fromJSON`: parse the text (outcome modelled as `Option Json`),
then build the record via `Object.assign`. -/
def Coin.fromJSON : Option Json → Except ParseError RawCoin
  | none => Except.error ParseError.syntaxError
  | some j => Except.ok (Coin.fromJSONValue j)

/-- The runtime record corresponding to a fully-populated `Coin`. -/
def Coin.toRaw (c : Coin) : RawCoin :=
  ⟨some (Json.str c.txid), some (Json.num c.vout), some (Json.num c.value),
   some (Json.str c.address), some c.status.toJSON, c.tweak.map Json.str⟩

/-- Read an optional integer field back from a raw record. -/
def asNumField : Option Json → Option (Option ℤ)
  | none => some none
  | some (Json.num n) => some (some n)
  | some _ => none

/-- Read an optional string field back from a raw record. -/
def asStrField : Option Json → Option (Option String)
  | none => some none
  | some (Json.str s) => some (some s)
  | some _ => none

/-- Decode a serialized status object back into a `CoinStatus`. -/
def CoinStatus.ofJSON : Json → Option CoinStatus
  | Json.obj kvs =>
    match jlookup "isConfirmed" kvs with
    | some (Json.bool b) =>
      match asNumField (jlookup "blockHeight" kvs),
            asStrField (jlookup "blockHash" kvs),
            asNumField (jlookup "blockTime" kvs) with
      | some bh, some bhash, some bt => some ⟨b, bh, bhash, bt⟩
      | _, _, _ => none
    | _ => none
  | _ => none

/-- A raw record is a faithful image of a `Coin` exactly when every
declared field has the declared type (and required fields are present). -/
def RawCoin.toCoin (r : RawCoin) : Option Coin :=
  match r.txid, r.vout, r.value, r.address, r.status with
  | some (Json.str t), some (Json.num vo), some (Json.num va),
    some (Json.str a), some sj =>
    match CoinStatus.ofJSON sj, asStrField r.tweak with
    | some st, some tw => some ⟨t, vo, va, a, st, tw⟩
    | _, _ => none
  | _, _, _, _, _ => none

/-- Hex value of one character, as in the runtime's hex decoder. -/
def hexVal (c : Char) : Option ℕ :=
  if Char.ofNat 48 ≤ c ∧ c ≤ Char.ofNat 57 then some (c.toNat - 48)
  else if Char.ofNat 97 ≤ c ∧ c ≤ Char.ofNat 102 then some (c.toNat - 87)
  else if Char.ofNat 65 ≤ c ∧ c ≤ Char.ofNat 70 then some (c.toNat - 55)
  else none

/-- `Buffer.from(s, 'hex')`: decode hex pairs, truncating at the first
invalid pair or odd trailing character. -/
def hexDecodeAux : List Char → List ℕ
  | c1 :: c2 :: rest =>
    match hexVal c1, hexVal c2 with
    | some hi, some lo => (16 * hi + lo) :: hexDecodeAux rest
    | _, _ => []
  | _ => []

def hexDecode (s : String) : List ℕ :=
  hexDecodeAux s.toList

/-- The key-normalization prelude of `toInput`: a 33-byte buffer whose
first byte is the parity marker 0x02 or 0x03 loses that byte;
anything else is used as-is. -/
def normalizeKey (b : List ℕ) : List ℕ :=
  if b.length = 33 ∧ (b.head? = some 2 ∨ b.head? = some 3) then b.drop 1 else b

/-- Throwing behaviour of `ecc.xOnlyPointAddTweak`: the library rejects
a first argument that is not a valid 32-byte x-only point
(`expectedPoint`) and a second argument that is not an in-range
32-byte scalar (`expectedTweak`). -/
inductive EccErr where
  | expectedPoint : EccErr
  | expectedTweak : EccErr
deriving DecidableEq

/-- Throwing behaviour of `toOutputScript`: the address cannot be
decoded for the given network. -/
inductive AddrErr where
  | unsupportedAddress : AddrErr
deriving DecidableEq

/-- A failure surfacing from `toInput`: a throw from the ecc library, the
TypeError raised by destructuring the library's `null` result (point at
infinity), or a throw from the address decoder. -/
inductive InputError where
  | ecc : EccErr → InputError
  | nullResult : InputError
  | addr : AddrErr → InputError
deriving DecidableEq

/-- The spec's InvalidTweakError class: the tweak-addition step failed,
either because the scalar is out of range (library throw) or because
the result is the point at infinity (`null`, whose destructuring
throws). -/
def InputError.isInvalidTweak : InputError → Bool
  | InputError.ecc EccErr.expectedTweak => true
  | InputError.nullResult => true
  | _ => false

/-- The spec's InvalidPublicKeyError class: the ecc library rejected the
spend key. -/
def InputError.isInvalidPublicKey : InputError → Bool
  | InputError.ecc EccErr.expectedPoint => true
  | _ => false

/-- Network parameters (`bitcoinjs-lib`'s `Network`, address/script
conventions for one chain). -/
structure Network where
  bech32 : String
  pubKeyHash : ℕ
  scriptHash : ℕ
deriving DecidableEq

/-- The witness-UTXO record of an input descriptor. -/
structure WitnessUtxo where
  script : List ℕ
  value : ℤ
deriving DecidableEq

/-- The input descriptor returned by `toInput`:
`{hash, index, witnessUtxo, tapInternalKey?}`. -/
structure InputDescriptor where
  hash : String
  index : ℤ
  witnessUtxo : WitnessUtxo
  tapInternalKey : Option (List ℕ)
deriving DecidableEq

/-- The `else` branch of `toInput` (standard, non-taproot path): decode
the coin's address into its output script for the network; no internal
key in the descriptor. -/
def Coin.standardInput
    (g : String → Network → Except AddrErr (List ℕ))
    (c : Coin) (network : Network) :
    Except InputError InputDescriptor :=
  match g c.address network with
  | Except.error e => Except.error (InputError.addr e)
  | Except.ok script =>
    Except.ok ⟨c.txid, c.vout, ⟨script, c.value⟩, none⟩

/-- `Coin.toInput`, parametrized by the two external library calls:
`f` embeds `ecc.xOnlyPointAddTweak` (error = library throw, `ok none` =
`null` for point at infinity, `ok (some k)` = tweaked x-only key) and
`g` embeds `toOutputScript`. The source first normalizes the spend key,
then branches on the truthiness of `this.tweak` (`if (this.tweak)`:
an absent or empty tweak is falsy): the tweak path calls `f` and
destructures its result (destructuring `null` throws), the standard
path decodes the address. -/
def Coin.toInput
    (f : List ℕ → List ℕ → Except EccErr (Option (List ℕ)))
    (g : String → Network → Except AddrErr (List ℕ))
    (c : Coin) (network : Network) (spendPubBuffer : List ℕ) :
    Except InputError InputDescriptor :=
  let pub := normalizeKey spendPubBuffer
  match c.tweak with
  | some tw =>
    if tw = "" then
      Coin.standardInput g c network
    else
      match f pub (hexDecode tw) with
      | Except.error e => Except.error (InputError.ecc e)
      | Except.ok none => Except.error InputError.nullResult
      | Except.ok (some xOnlyPubkey) =>
        Except.ok ⟨c.txid, c.vout,
          ⟨[0x51, 0x20] ++ xOnlyPubkey, c.value⟩, some pub⟩
  | none => Coin.standardInput g c network

/-- C1: for every valid coin record `c` (all declared fields typed and
present, `tweak` optional), deserializing the serialized form
reproduces `c` exactly, field for field: parsing succeeds and yields
precisely the runtime record of `c`, and that record decodes back to
`c` itself — the status sub-record included, an absent tweak staying
absent. -/
theorem coin_serialize_roundtrip (c : Coin) :
    Coin.fromJSON (some c.toJSON) = Except.ok c.toRaw ∧
      RawCoin.toCoin c.toRaw = some c := by
  obtain ⟨t, vo, va, a, ⟨b, bh, bhash, bt⟩, tw⟩ := c
  cases bh <;> cases bhash <;> cases bt <;> cases tw <;> exact ⟨rfl, rfl⟩

/-- Modelled from the spec: the repository's `consensus.ts` (which
exports this constant) is not among the available sources; the spec
fixes the witness scale factor at 4. -/
def WITNESS_SCALE_FACTOR : ℕ := 4

/-- `Coin.estimateSpendingSize`: outpoint + sequence + empty legacy
script, plus the witness byte count (item-count byte, signature item,
key item) converted to vbytes by `((size + WSF - 1) / WSF) | 0` —
integer ceiling division, since the operands are non-negative
integers. Independent of the coin's fields. -/
def Coin.estimateSpendingSize (_c : Coin) : ℕ :=
  let total := 32 + 4 + 4 + 1
  let size := 1 + (1 + 73) + (1 + 33)
  let vsize := (size + WITNESS_SCALE_FACTOR - 1) / WITNESS_SCALE_FACTOR
  total + vsize

/-- `Coin.estimateSpendingFee`: size times fee rate, no rounding. -/
def Coin.estimateSpendingFee (c : Coin) (feeRate : ℚ) : ℚ :=
  (c.estimateSpendingSize : ℚ) * feeRate

/-- C5: for every coin, whatever its fields and whether or not a tweak
is present, `estimateSpendingSize` returns exactly 69, computed as the
41 non-witness bytes plus the integer ceiling of the 109 witness bytes
divided by the witness scale factor 4. -/
theorem estimateSpendingSize_constant (c : Coin) :
    c.estimateSpendingSize = 41 + (109 + WITNESS_SCALE_FACTOR - 1) / WITNESS_SCALE_FACTOR ∧
      c.estimateSpendingSize = 69 := by
  exact ⟨rfl, rfl⟩

/-- C6: for every coin and every non-negative fee rate,
`estimateSpendingFee` equals `estimateSpendingSize * feeRate`, i.e.
exactly `69 * feeRate`, with no rounding applied. -/
theorem estimateSpendingFee_linear (c : Coin) (feeRate : ℚ) (h : 0 ≤ feeRate) :
    c.estimateSpendingFee feeRate = 69 * feeRate := by
  unfold Coin.estimateSpendingFee
  rw [show c.estimateSpendingSize = 69 from rfl]
  norm_num

/-- Witness for C6: the spec's concrete scenario coin at fee rate 5
satisfies the hypothesis and yields a fee of 345. -/
theorem estimateSpendingFee_linear_witness :
    (0 : ℚ) ≤ 5 ∧
      Coin.estimateSpendingFee
        ⟨"a", 0, 100000, "tb1q", ⟨false, none, none, none⟩, none⟩ 5 = 345 := by
  refine ⟨by norm_num, ?_⟩
  rw [estimateSpendingFee_linear _ 5 (by norm_num)]
  norm_num

/-- C2: for every coin whose tweak is present (a non-empty hex string —
the data-model invariant; the source's `if (this.tweak)` truthiness
test) and for which the x-only tweak addition succeeds with a 32-byte
tweaked key, `toInput` returns the descriptor whose outpoint is
(`txid`, `vout`), whose witness-UTXO value is `coin.value`, whose
internal key is the untweaked 32-byte x-only spend key, and whose
witness script is exactly 34 bytes: 0x51, then 0x20, then the 32-byte
tweaked key. -/
theorem toInput_tweak_descriptor
    (f : List ℕ → List ℕ → Except EccErr (Option (List ℕ)))
    (g : String → Network → Except AddrErr (List ℕ))
    (c : Coin) (net : Network) (pub k : List ℕ) (tw : String)
    (htw : c.tweak = some tw) (hne : tw ≠ "")
    (hpub : (normalizeKey pub).length = 32)
    (hf : f (normalizeKey pub) (hexDecode tw) = Except.ok (some k))
    (hk : k.length = 32) :
    Coin.toInput f g c net pub =
      Except.ok ⟨c.txid, c.vout, ⟨[0x51, 0x20] ++ k, c.value⟩,
        some (normalizeKey pub)⟩ ∧
      ([0x51, 0x20] ++ k).length = 34 ∧
      ([0x51, 0x20] ++ k).head? = some 0x51 ∧
      ([0x51, 0x20] ++ k)[1]? = some 0x20 ∧
      ([0x51, 0x20] ++ k).drop 2 = k ∧
      (normalizeKey pub).length = 32 := by
  refine ⟨?_, by simp [hk], rfl, by simp, rfl, hpub⟩
  unfold Coin.toInput
  rw [htw]
  simp [hne, hf]

/-- Witness for C2: a concrete coin with tweak "ab", a 33-byte
compressed spend key, and a tweak addition returning a concrete
32-byte key, satisfying all hypotheses. -/
theorem toInput_tweak_descriptor_witness :
    ("ab" : String) ≠ "" ∧
    (normalizeKey (List.replicate 33 2)).length = 32 ∧
    (List.replicate 32 7).length = 32 ∧
    (Coin.toInput (fun _ _ => Except.ok (some (List.replicate 32 7)))
        (fun _ _ => Except.ok [])
        ⟨"t", 1, 2, "a", ⟨false, none, none, none⟩, some "ab"⟩
        ⟨"bc", 0, 5⟩ (List.replicate 33 2) =
      Except.ok ⟨"t", 1, ⟨[0x51, 0x20] ++ List.replicate 32 7, 2⟩,
        some (normalizeKey (List.replicate 33 2))⟩ ∧
      ([0x51, 0x20] ++ List.replicate 32 7).length = 34 ∧
      ([0x51, 0x20] ++ List.replicate 32 7).head? = some 0x51 ∧
      ([0x51, 0x20] ++ List.replicate 32 7)[1]? = some 0x20 ∧
      ([0x51, 0x20] ++ List.replicate 32 7).drop 2 = List.replicate 32 7 ∧
      (normalizeKey (List.replicate 33 2)).length = 32) :=
  ⟨by decide, by decide, by decide,
    toInput_tweak_descriptor _ _ _ _ _ _ _ rfl (by decide) (by decide) rfl
      (by decide)⟩

/-- C3: for every coin with no tweak whose address decodes for the given
network, `toInput` returns the descriptor carrying the outpoint
(`txid`, `vout`) and a witness-UTXO record whose script is exactly the
decoded output script of that address/network pair and whose value is
`coin.value`, with no internal key. -/
theorem toInput_standard_descriptor
    (f : List ℕ → List ℕ → Except EccErr (Option (List ℕ)))
    (g : String → Network → Except AddrErr (List ℕ))
    (c : Coin) (net : Network) (pub s : List ℕ)
    (htw : c.tweak = none)
    (hg : g c.address net = Except.ok s) :
    Coin.toInput f g c net pub =
      Except.ok ⟨c.txid, c.vout, ⟨s, c.value⟩, none⟩ := by
  unfold Coin.toInput
  rw [htw]
  simp [Coin.standardInput, hg]

/-- Witness for C3: a concrete untweaked coin whose address decodes to
the script `[0, 20]`. -/
theorem toInput_standard_descriptor_witness :
    (⟨"t", 0, 1, "addr", ⟨false, none, none, none⟩, none⟩ : Coin).tweak = none ∧
    Coin.toInput (fun _ _ => Except.ok none) (fun _ _ => Except.ok [0, 20])
        ⟨"t", 0, 1, "addr", ⟨false, none, none, none⟩, none⟩
        ⟨"bc", 0, 5⟩ [] =
      Except.ok ⟨"t", 0, ⟨[0, 20], 1⟩, none⟩ :=
  ⟨rfl, toInput_standard_descriptor _ _ _ _ _ _ rfl rfl⟩

/-- C4: for every coin whose tweak is present (non-empty, per the
data-model invariant), if the x-only tweak addition fails — the library
rejects the scalar as out of range, or returns null for the point at
infinity (whose destructuring throws) — then `toInput` fails with an
error of the InvalidTweakError class and returns no descriptor. -/
theorem toInput_invalid_tweak_fails
    (f : List ℕ → List ℕ → Except EccErr (Option (List ℕ)))
    (g : String → Network → Except AddrErr (List ℕ))
    (c : Coin) (net : Network) (pub : List ℕ) (tw : String)
    (htw : c.tweak = some tw) (hne : tw ≠ "")
    (hf : f (normalizeKey pub) (hexDecode tw) = Except.error EccErr.expectedTweak ∨
          f (normalizeKey pub) (hexDecode tw) = Except.ok none) :
    ∃ e, Coin.toInput f g c net pub = Except.error e ∧
      e.isInvalidTweak = true := by
  rcases hf with hf | hf
  · refine ⟨InputError.ecc EccErr.expectedTweak, ?_, rfl⟩
    unfold Coin.toInput
    rw [htw]
    simp [hne, hf]
  · refine ⟨InputError.nullResult, ?_, rfl⟩
    unfold Coin.toInput
    rw [htw]
    simp [hne, hf]

/-- Witness for C4: a concrete coin with tweak "ab" and a tweak addition
returning null (point at infinity). -/
theorem toInput_invalid_tweak_fails_witness :
    ("ab" : String) ≠ "" ∧
    ∃ e, Coin.toInput (fun _ _ => Except.ok none) (fun _ _ => Except.ok [])
        ⟨"t", 0, 1, "a", ⟨false, none, none, none⟩, some "ab"⟩
        ⟨"bc", 0, 5⟩ (List.replicate 32 9) = Except.error e ∧
      e.isInvalidTweak = true :=
  ⟨by decide, toInput_invalid_tweak_fails _ _ _ _ _ _ rfl (by decide) (Or.inr rfl)⟩

/-- C7: for every coin, network and 32-byte trailing key bytes, `toInput`
returns identical results for the 33-byte spend keys starting with the
parity byte 0x02 and with 0x03: both normalize to the same x-only
key. -/
theorem toInput_parity_independence
    (f : List ℕ → List ℕ → Except EccErr (Option (List ℕ)))
    (g : String → Network → Except AddrErr (List ℕ))
    (c : Coin) (net : Network) (rest : List ℕ)
    (h : rest.length = 32) :
    Coin.toInput f g c net (2 :: rest) = Coin.toInput f g c net (3 :: rest) := by
  have h2 : normalizeKey (2 :: rest) = rest := by
    simp [normalizeKey, h]
  have h3 : normalizeKey (3 :: rest) = rest := by
    simp [normalizeKey, h]
  unfold Coin.toInput
  rw [h2, h3]

/-- Witness for C7: a concrete tweaked coin and the two parity variants
of a concrete 33-byte key. -/
theorem toInput_parity_independence_witness :
    (List.replicate 32 0).length = 32 ∧
    Coin.toInput (fun _ _ => Except.ok none) (fun _ _ => Except.ok [])
        ⟨"t", 0, 1, "a", ⟨false, none, none, none⟩, some "ab"⟩
        ⟨"bc", 0, 5⟩ (2 :: List.replicate 32 0) =
      Coin.toInput (fun _ _ => Except.ok none) (fun _ _ => Except.ok [])
        ⟨"t", 0, 1, "a", ⟨false, none, none, none⟩, some "ab"⟩
        ⟨"bc", 0, 5⟩ (3 :: List.replicate 32 0) :=
  ⟨by decide, toInput_parity_independence _ _ _ _ _ (by decide)⟩

/-- Counterexample to C8 as stated: the well-formed text `"{}"` (parse
tree: the empty object) lacks every required field, yet `fromJSON` does
not fail — it returns a coin record with all fields absent. -/
theorem fromJSON_missing_fields_returns_record :
    Coin.fromJSON (some (Json.obj [])) =
      Except.ok ⟨none, none, none, none, none, none⟩ := rfl

/-- C8 (amended): `fromJSON` fails with a ParseError exactly when the
text is not well-formed; on any well-formed text it returns a coin
record, with no check that the required fields are present. -/
theorem fromJSON_fails_iff_malformed (pj : Option Json) :
    ((∃ e, Coin.fromJSON pj = Except.error e) ↔ pj = none) ∧
      ((∃ r, Coin.fromJSON pj = Except.ok r) ↔ pj ≠ none) := by
  cases pj
  · simp [Coin.fromJSON]
    exact ⟨ParseError.syntaxError, trivial⟩
  · simp [Coin.fromJSON]

/-- Counterexample to C9 as stated: an untweaked coin with a 3-byte
spend key (neither 32 nor 33 bytes, hence no valid curve point
encoding) does not make `toInput` fail — the standard path never
inspects the key. -/
theorem toInput_ignores_key_on_standard_path :
    ([1, 2, 3] : List ℕ).length ≠ 32 ∧ ([1, 2, 3] : List ℕ).length ≠ 33 ∧
    Coin.toInput (fun _ _ => Except.ok none) (fun _ _ => Except.ok [0])
        ⟨"t", 0, 1, "addr", ⟨false, none, none, none⟩, none⟩
        ⟨"bc", 0, 5⟩ [1, 2, 3] =
      Except.ok ⟨"t", 0, ⟨[0], 1⟩, none⟩ :=
  ⟨by decide, by decide, rfl⟩

/-- C9 (amended): the spend key is validated only on the tweak path —
for a coin whose tweak is present (non-empty), when the ecc library
rejects the normalized spend key as not a valid 32-byte x-only point,
`toInput` fails with an error of the InvalidPublicKeyError class; for
a coin without a tweak the key is never inspected. -/
theorem toInput_invalid_key_fails_on_tweak_path
    (f : List ℕ → List ℕ → Except EccErr (Option (List ℕ)))
    (g : String → Network → Except AddrErr (List ℕ))
    (c : Coin) (net : Network) (pub : List ℕ) (tw : String)
    (htw : c.tweak = some tw) (hne : tw ≠ "")
    (hf : f (normalizeKey pub) (hexDecode tw) = Except.error EccErr.expectedPoint) :
    Coin.toInput f g c net pub = Except.error (InputError.ecc EccErr.expectedPoint) ∧
      (InputError.ecc EccErr.expectedPoint).isInvalidPublicKey = true := by
  refine ⟨?_, rfl⟩
  unfold Coin.toInput
  rw [htw]
  simp [hne, hf]

/-- Witness for the amended C9: a concrete tweaked coin whose 3-byte
spend key the ecc library rejects. -/
theorem toInput_invalid_key_fails_on_tweak_path_witness :
    ("ab" : String) ≠ "" ∧
    Coin.toInput (fun _ _ => Except.error EccErr.expectedPoint)
        (fun _ _ => Except.ok [])
        ⟨"t", 0, 1, "a", ⟨false, none, none, none⟩, some "ab"⟩
        ⟨"bc", 0, 5⟩ [1, 2, 3] =
      Except.error (InputError.ecc EccErr.expectedPoint) ∧
    (InputError.ecc EccErr.expectedPoint).isInvalidPublicKey = true := by
  have h : ("ab" : String) ≠ "" := by decide
  have main := toInput_invalid_key_fails_on_tweak_path
    (fun _ _ => Except.error EccErr.expectedPoint) (fun _ _ => Except.ok [])
    ⟨"t", 0, 1, "a", ⟨false, none, none, none⟩, some "ab"⟩
    ⟨"bc", 0, 5⟩ [1, 2, 3] "ab" rfl h rfl
  exact ⟨h, main.1, main.2⟩

/-- C10: for every coin whose tweak is present (non-empty, per the
data-model invariant), the result of `toInput` does not depend on the
coin's address or on the network parameters: two calls on coins
identical except for their address, with any two network parameter
values, return identical results — the taproot path reads neither. -/
theorem toInput_tweak_path_ignores_address_network
    (f : List ℕ → List ℕ → Except EccErr (Option (List ℕ)))
    (g : String → Network → Except AddrErr (List ℕ))
    (c : Coin) (net net' : Network) (a a' : String) (pub : List ℕ) (tw : String)
    (htw : c.tweak = some tw) (hne : tw ≠ "") :
    Coin.toInput f g ⟨c.txid, c.vout, c.value, a, c.status, c.tweak⟩ net pub =
      Coin.toInput f g ⟨c.txid, c.vout, c.value, a', c.status, c.tweak⟩ net' pub := by
  unfold Coin.toInput
  rw [htw]
  simp [hne]

/-- Witness for C10: two coins differing only in their address, on two
different networks, produce the same descriptor. -/
theorem toInput_tweak_path_ignores_address_network_witness :
    ("ab" : String) ≠ "" ∧
    Coin.toInput (fun _ _ => Except.ok (some (List.replicate 32 7)))
        (fun _ _ => Except.ok [])
        ⟨"t", 0, 1, "addr1", ⟨false, none, none, none⟩, some "ab"⟩
        ⟨"bc", 0, 5⟩ [] =
      Coin.toInput (fun _ _ => Except.ok (some (List.replicate 32 7)))
        (fun _ _ => Except.ok [])
        ⟨"t", 0, 1, "addr2", ⟨false, none, none, none⟩, some "ab"⟩
        ⟨"tb", 111, 196⟩ [] := by
  have h : ("ab" : String) ≠ "" := by decide
  exact ⟨h,
    toInput_tweak_path_ignores_address_network _ _
      ⟨"t", 0, 1, "x", ⟨false, none, none, none⟩, some "ab"⟩
      ⟨"bc", 0, 5⟩ ⟨"tb", 111, 196⟩ "addr1" "addr2" [] "ab" rfl h⟩
